import Mathlib

/-!
Shallow embedding of `src/checkupy/onnx_models.py` (class `OnnxModel`).

The numeric domain is a parameter `α`; the numpy cast `astype(np.float32)`
is modelled by a function `f32 : α → α` applied to every value it touches.
The inference engine (`onnxruntime.InferenceSession.run` restricted to the
first returned tensor, as the source consumes `session.run(...)[0]`) is a
field `run : List (List α) → List (List α)` of the model structure.
2-D matrices are lists of rows.  Python exceptions become an `Except`.
-/

namespace Checkupy

/-- Python exceptions that `predict` can raise. -/
inductive PyError where
  | valueError : String → PyError
  | typeError : String → PyError
deriving DecidableEq, Repr

instance {ε σ : Type} [DecidableEq ε] [DecidableEq σ] : DecidableEq (Except ε σ) := fun x y =>
  match x, y with
  | .ok a, .ok b =>
    if h : a = b then .isTrue (by rw [h]) else .isFalse (fun he => h (Except.ok.inj he))
  | .error a, .error b =>
    if h : a = b then .isTrue (by rw [h]) else .isFalse (fun he => h (Except.error.inj he))
  | .ok _, .error _ => .isFalse (fun he => Except.noConfusion he)
  | .error _, .ok _ => .isFalse (fun he => Except.noConfusion he)

/-- A numpy `ndarray`: the shape vector and the flat data buffer in C order.
`ndim` is the length of the shape vector. -/
structure NDArray (α : Type) where
  shape : List Nat
  data : List α
deriving DecidableEq, Repr

/-- A pandas `DataFrame`: row index, column names, and the rows of values
(each row listing the values of the columns in `columns` order). -/
structure DataFrame (α : Type) where
  index : List Int
  columns : List String
  rows : List (List α)
deriving DecidableEq, Repr

/-- A pandas `Series`: index metadata is irrelevant to `predict` (only
`.values` is read), so only the values are kept. -/
structure Series (α : Type) where
  values : List α
deriving DecidableEq, Repr

/-- The values a caller may place in the `dict` variant: the source
distinguishes `pd.DataFrame`/`pd.Series` from everything else, which is fed
through `np.atleast_1d`. -/
inductive DictVal (α : Type) where
  | scalar : α → DictVal α
  | arr : NDArray α → DictVal α
  | ser : Series α → DictVal α
  | frame : DataFrame α → DictVal α
deriving DecidableEq, Repr

/-- The caller-supplied argument of `predict`: the three supported shapes
(`np.ndarray`, `pd.DataFrame`, `dict`) plus non-supported Python values
(a bare number, a string) that hit the final `raise TypeError`. -/
inductive InputRecord (α : Type) where
  | array : NDArray α → InputRecord α
  | table : DataFrame α → InputRecord α
  | dict : List (String × DictVal α) → InputRecord α
  | scalar : α → InputRecord α
  | str : String → InputRecord α
deriving DecidableEq, Repr

/-- What `predict` returns: an `ndarray` (matrix), a `DataFrame`, or a
dict mapping labels to flat columns, matching the input variant. -/
inductive PredictResult (α : Type) where
  | matrix : List (List α) → PredictResult α
  | table : DataFrame α → PredictResult α
  | mapping : List (String × List α) → PredictResult α
deriving DecidableEq, Repr

/-- The `OnnxModel` state built by `__init__`: the stored path, the two
label lists, and the loaded session, abstracted to the function the source
uses it for (matrix in, first output tensor out). -/
structure OnnxModel (α : Type) where
  model_path : String
  input_labels : List String
  output_labels : List String
  run : List (List α) → List (List α)

variable {α : Type} [Inhabited α]

/-- `ndarray.ndim`. -/
def NDArray.ndim (nd : NDArray α) : Nat := nd.shape.length

/-- `ndarray.shape[i]` (0 when out of range; the source only reads it
inside the rank guard). -/
def NDArray.dim (nd : NDArray α) (i : Nat) : Nat := nd.shape.getD i 0

/-- The rows of a 2-D `ndarray`, read off the C-order buffer. -/
def NDArray.toMatrix (nd : NDArray α) : List (List α) :=
  (List.range (nd.dim 0)).map fun i => ((nd.data.drop (i * nd.dim 1)).take (nd.dim 1))

/-- `ndarray.astype(np.float32)`. -/
def NDArray.astype (nd : NDArray α) (f32 : α → α) : NDArray α :=
  ⟨nd.shape, nd.data.map f32⟩

/-- `df[labels].values`: pandas selects, row by row, the value sitting at
the (first) position of each requested label among `df.columns`. -/
def DataFrame.select (df : DataFrame α) (labels : List String) : List (List α) :=
  df.rows.map fun r => labels.map fun l => r.getD (df.columns.indexOf l) default

/-- The values of the (first) column named `l`, as pandas name-based
selection reads them. -/
def DataFrame.col (df : DataFrame α) (l : String) : List α :=
  df.rows.map fun r => r.getD (df.columns.indexOf l) default

/-- The per-key coercion of the dict branch: `pd.DataFrame`/`pd.Series`
values go through `.values.astype(np.float32).flatten()`, anything else
through `np.atleast_1d(...).astype(np.float32).flatten()`. -/
def DictVal.flatten32 (f32 : α → α) : DictVal α → List α
  | .scalar a => [f32 a]
  | .arr nd => nd.data.map f32
  | .ser s => s.values.map f32
  | .frame df => (df.rows.flatten).map f32

/-- The numpy error message for `np.concatenate` applied to an empty list. -/
def npConcatEmptyMsg : String := "need at least one array to concatenate"

/-- The numpy error message for `np.concatenate` applied to arrays whose
non-concatenation dimensions disagree. -/
def npConcatMismatchMsg : String :=
  "all the input array dimensions except for the concatenation axis must match exactly"

/-- The pandas error message for a `DataFrame` constructor whose data shape
contradicts the supplied index or column list. -/
def pdShapeMismatchMsg : String := "Shape of passed values does not match the implied indices"

/-- `np.concatenate([c.reshape(-1, 1) for c in cols], axis=1)`: fails on an
empty list or on columns of unequal length, otherwise stacks the columns
into a matrix (row `i` collects entry `i` of every column). -/
def columnStack (cols : List (List α)) : Except PyError (List (List α)) :=
  match cols with
  | [] => .error (.valueError npConcatEmptyMsg)
  | c :: rest =>
    if ∀ x ∈ rest, x.length = c.length then
      .ok ((List.range c.length).map fun i => (c :: rest).map fun col => col.getD i default)
    else
      .error (.valueError npConcatMismatchMsg)

/-- The pandas `DataFrame(data=..., index=..., columns=...)` constructor:
it rejects data whose shape does not match the index and column lists. -/
def mkDataFrame (vals : List (List α)) (index : List Int) (cols : List String) :
    Except PyError (DataFrame α) :=
  if vals.length = index.length ∧ ∀ r ∈ vals, r.length = cols.length then
    .ok ⟨index, cols, vals⟩
  else
    .error (.valueError pdShapeMismatchMsg)

/-- `outputs.T` on a 2-D array of `N` rows: the list of columns; the width
is read off the first row (numpy outputs are rectangular). -/
def npTranspose (m : List (List α)) : List (List α) :=
  (List.range ((m.headD []).length)).map fun j => m.map fun r => r.getD j default

/-- The single quote character, used by Python `repr` of a string. -/
def pyQuote (s : String) : String :=
  String.mk [Char.ofNat 39] ++ s ++ String.mk [Char.ofNat 39]

/-- Python `repr` of a list of strings, as an f-string interpolates it. -/
def pyReprStrList (ls : List String) : String :=
  "[" ++ String.intercalate ", " (ls.map pyQuote) ++ "]"

/-- The message `wrong_cols` built at the top of `predict`. -/
def wrongColsMsg (target : Nat) : String :=
  "Expected input tensor with shape (N, " ++ toString target ++ ")"

/-- The message `col_list` built at the top of `predict`; it spells out the
whole required label list. -/
def colListMsg (labels : List String) : String :=
  "DataFrame must contain columns: " ++ pyReprStrList labels

/-- The input-checking half of `predict` (everything before `# make the
inference`): each variant is validated and marshalled into the float32
matrix `vals` handed to the session. -/
def normalize (f32 : α → α) (m : OnnxModel α) :
    InputRecord α → Except PyError (List (List α))
  | .array nd =>
    if nd.ndim ≠ 2 ∨ nd.dim 1 ≠ m.input_labels.length then
      .error (.valueError (wrongColsMsg m.input_labels.length))
    else
      .ok ((nd.astype f32).toMatrix)
  | .table df =>
    if ¬ (∀ l ∈ m.input_labels, l ∈ df.columns) then
      .error (.valueError (colListMsg m.input_labels))
    else
      .ok ((df.select m.input_labels).map fun r => r.map f32)
  | .dict d =>
    if ¬ (∀ l ∈ m.input_labels, (d.lookup l).isSome) then
      .error (.valueError (colListMsg m.input_labels))
    else
      columnStack (m.input_labels.map fun l =>
        DictVal.flatten32 f32 ((d.lookup l).getD (DictVal.scalar default)))
  | .scalar _ => .error (.typeError "Unsupported input type")
  | .str _ => .error (.typeError "Unsupported input type")

/-- `OnnxModel.predict`: validate and marshal the input (`normalize`), run
the session on the resulting matrix, then wrap the first output tensor in
the shape family the caller used. -/
def predict (f32 : α → α) (m : OnnxModel α) (data : InputRecord α) :
    Except PyError (PredictResult α) :=
  match normalize f32 m data with
  | .error e => .error e
  | .ok vals =>
    let outputs := m.run vals
    match data with
    | .array _ => .ok (.matrix outputs)
    | .dict _ =>
      .ok (.mapping ((m.output_labels.zip (npTranspose outputs)).map
        fun p => (p.1, p.2.map f32)))
    | .table df => (mkDataFrame outputs df.index m.output_labels).map .table
    | .scalar _ => .error (.typeError "Unsupported output type")
    | .str _ => .error (.typeError "Unsupported output type")

/-- `OnnxModel.__call__`, the alias of `predict`. -/
def call (f32 : α → α) (m : OnnxModel α) (data : InputRecord α) :
    Except PyError (PredictResult α) :=
  predict f32 m data

/-- The state-passing form of the `predict` method: the body of the source
method reads `self._input_labels`, `self._output_labels` and `self.session`
but assigns no attribute of `self`, so the post-state is the pre-state. -/
def predictS (f32 : α → α) (m : OnnxModel α) (data : InputRecord α) :
    Except PyError (PredictResult α) × OnnxModel α :=
  (predict f32 m data, m)

/-- Applying the 32-bit truncation to every entry of an `ndarray`
(the "32-bit-truncated equivalent" of the caller's data). -/
def NDArray.map32 (f32 : α → α) (nd : NDArray α) : NDArray α :=
  ⟨nd.shape, nd.data.map f32⟩

/-- Applying the 32-bit truncation to every value of a `DataFrame`. -/
def DataFrame.map32 (f32 : α → α) (df : DataFrame α) : DataFrame α :=
  ⟨df.index, df.columns, df.rows.map fun r => r.map f32⟩

/-- Applying the 32-bit truncation to every value of a `Series`. -/
def Series.map32 (f32 : α → α) (s : Series α) : Series α :=
  ⟨s.values.map f32⟩

/-- Applying the 32-bit truncation to a dict value. -/
def DictVal.map32 (f32 : α → α) : DictVal α → DictVal α
  | .scalar a => .scalar (f32 a)
  | .arr nd => .arr (nd.map32 f32)
  | .ser s => .ser (s.map32 f32)
  | .frame df => .frame (df.map32 f32)

/-- Applying the 32-bit truncation to every numeric value carried by an
input record (labels, indices and shapes are untouched). -/
def InputRecord.map32 (f32 : α → α) : InputRecord α → InputRecord α
  | .array nd => .array (nd.map32 f32)
  | .table df => .table (df.map32 f32)
  | .dict d => .dict (d.map fun p => (p.1, p.2.map32 f32))
  | .scalar a => .scalar (f32 a)
  | .str s => .str s

/-! ### Helper lemmas -/

theorem indexOf_getElem_self {l : List String} (H : l.Nodup) (i : Nat) (h : i < l.length) :
    l.indexOf l[i] = i := by
  induction l generalizing i with
  | nil => simp at h
  | cons a t ih =>
    rw [List.nodup_cons] at H
    cases i with
    | zero => simp [List.indexOf_cons]
    | succ n =>
      have hn : n < t.length := by simpa using h
      have hne : (a == t[n]) = false := by
        refine beq_eq_false_iff_ne.mpr fun e => H.1 ?_
        exact e ▸ List.getElem_mem hn
      simp only [List.getElem_cons_succ, List.indexOf_cons, hne, cond_false]
      rw [ih H.2 n hn]

theorem select_row_id (labels : List String) (hnd : labels.Nodup) (r : List α)
    (hr : r.length = labels.length) :
    (labels.map fun l => r.getD (labels.indexOf l) default) = r := by
  apply List.ext_getElem
  · simp [hr]
  · intro i h1 h2
    simp only [List.getElem_map]
    rw [indexOf_getElem_self hnd i (by simpa using h1)]
    exact List.getD_eq_getElem r default h2

theorem drop_take_flatten (k : Nat) (rows : List (List α)) (h : ∀ r ∈ rows, r.length = k) :
    ∀ (i : Nat) (hi : i < rows.length),
      ((rows.flatten).drop (i * k)).take k = rows[i] := by
  induction rows with
  | nil => intro i hi; simp at hi
  | cons r t ih =>
    intro i hi
    have hr : r.length = k := h r (List.mem_cons_self r t)
    cases i with
    | zero =>
      simp only [Nat.zero_mul, List.drop_zero, List.flatten_cons, List.getElem_cons_zero]
      rw [List.take_append_eq_append_take, ← hr, List.take_length, Nat.sub_self,
        List.take_zero, List.append_nil]
    | succ n =>
      have hstep : (n + 1) * k = k + n * k := by ring
      have hd : List.drop k (r ++ t.flatten) = t.flatten := by
        rw [← hr]; exact List.drop_left r t.flatten
      rw [List.flatten_cons, List.getElem_cons_succ, hstep, ← List.drop_drop, hd]
      exact ih (fun x hx => h x (List.mem_cons_of_mem r hx)) n (by simpa using hi)

theorem toMatrix_ofRows (rows : List (List α)) (k : Nat)
    (h : ∀ r ∈ rows, r.length = k) :
    NDArray.toMatrix ⟨[rows.length, k], rows.flatten⟩ = rows := by
  unfold NDArray.toMatrix NDArray.dim
  simp only [List.getD, List.getElem?_cons_zero, Option.getD_some,
    List.getElem?_cons_succ]
  apply List.ext_getElem
  · simp
  · intro i h1 h2
    have hi : i < rows.length := by simpa using h1
    simp only [List.getElem_map, List.getElem_range]
    exact drop_take_flatten k rows h i hi

theorem lookup_label_map (labels : List String) (g : String → DictVal α) :
    ∀ l ∈ labels, (labels.map fun x => (x, g x)).lookup l = some (g l) := by
  induction labels with
  | nil => intro l hl; simp at hl
  | cons a t ih =>
    intro l hl
    by_cases hla : l = a
    · subst hla; simp [List.lookup]
    · have hlt : l ∈ t := by
        rcases List.mem_cons.mp hl with h | h
        · exact absurd h hla
        · exact h
      simpa [List.lookup, beq_eq_false_iff_ne.mpr hla] using ih l hlt

theorem lookup_map_snd (d : List (String × DictVal α)) (F : DictVal α → DictVal α)
    (l : String) :
    (d.map fun p => (p.1, F p.2)).lookup l = (d.lookup l).map F := by
  induction d with
  | nil => simp
  | cons p t ih =>
    by_cases hl : l = p.1
    · subst hl; simp [List.lookup]
    · simpa [List.lookup, beq_eq_false_iff_ne.mpr hl] using ih

theorem map_fst_zip_take (L : List String) (X : List (List α)) :
    ((L.zip X).map Prod.fst) = L.take X.length := by
  induction L generalizing X with
  | nil => simp
  | cons a t ih =>
    cases X with
    | nil => simp
    | cons x xs => simp [ih]

theorem normalize_array_ofRows (f32 : α → α) (m : OnnxModel α) (rows : List (List α))
    (h : ∀ r ∈ rows, r.length = m.input_labels.length) :
    normalize f32 m (.array ⟨[rows.length, m.input_labels.length], rows.flatten⟩)
      = .ok (rows.map fun r => r.map f32) := by
  have h2 : ∀ r ∈ (rows.map fun r => r.map f32), r.length = m.input_labels.length := by
    intro r hr
    obtain ⟨r0, hr0, rfl⟩ := List.mem_map.mp hr
    simpa using h r0 hr0
  have h3 := toMatrix_ofRows (rows.map fun r => r.map f32) m.input_labels.length h2
  simp only [List.length_map] at h3
  simp only [normalize, NDArray.ndim, NDArray.dim, List.getD, List.length_cons,
    List.length_nil, List.getElem?_cons_zero, List.getElem?_cons_succ, Option.getD_some]
  rw [if_neg (by simp)]
  simp only [NDArray.astype, List.map_flatten]
  rw [h3]

theorem columnStack_of_rect (G : String → List α) (a : String) (t : List String) (N : Nat)
    (hG : ∀ l, (G l).length = N) :
    columnStack ((a :: t).map G)
      = .ok ((List.range N).map fun i => (a :: t).map fun l => (G l).getD i default) := by
  simp only [List.map_cons, columnStack]
  rw [if_pos]
  · rw [hG a]
    congr 1
    apply List.map_congr_left
    intro i _
    simp [List.map_map, Function.comp]
  · intro x hx
    obtain ⟨l, _, rfl⟩ := List.mem_map.mp hx
    rw [hG, hG]

theorem normalize_dict_of_cols (f32 : α → α) (m : OnnxModel α) (rows : List (List α))
    (d : List (String × DictVal α))
    (hnd : m.input_labels.Nodup) (hne : m.input_labels ≠ [])
    (h : ∀ r ∈ rows, r.length = m.input_labels.length)
    (hkeys : ∀ l ∈ m.input_labels, (d.lookup l).isSome ∧
      DictVal.flatten32 f32 ((d.lookup l).getD (DictVal.scalar default))
        = (rows.map fun r => r.getD (m.input_labels.indexOf l) default).map f32) :
    normalize f32 m (.dict d) = .ok (rows.map fun r => r.map f32) := by
  simp only [normalize]
  rw [if_neg (not_not_intro fun l hl => (hkeys l hl).1)]
  rw [List.map_congr_left (fun l hl => (hkeys l hl).2)]
  generalize hL : m.input_labels = L at hnd hne h ⊢
  cases L with
  | nil => exact absurd rfl hne
  | cons a t =>
    rw [columnStack_of_rect
      (fun l => (rows.map fun r => r.getD ((a :: t).indexOf l) default).map f32)
      a t rows.length (fun l => by simp)]
    congr 1
    apply List.ext_getElem
    · simp
    · intro i h1 h2
      have hi : i < rows.length := by simpa using h1
      simp only [List.getElem_map, List.getElem_range]
      have hstep : ∀ l : String,
          (((rows.map fun r => r.getD ((a :: t).indexOf l) default).map f32).getD i default)
            = f32 (rows[i].getD ((a :: t).indexOf l) default) := by
        intro l
        rw [List.getD_eq_getElem _ _ (by simpa using hi)]
        simp
      rw [List.map_congr_left (fun l _ => hstep l)]
      have hsel := select_row_id (a :: t) hnd rows[i] (h rows[i] (List.getElem_mem hi))
      calc ((a :: t).map fun l => f32 (rows[i].getD ((a :: t).indexOf l) default))
          = ((a :: t).map fun l => rows[i].getD ((a :: t).indexOf l) default).map f32 := by
            simp [List.map_map, Function.comp]
        _ = rows[i].map f32 := by rw [hsel]

/-- `C1`: for a `Matrix`, a `Table` and a `Mapping` carrying equivalent
numeric content for the declared `input_labels` (same rectangular value
block `rows`, read column-wise by label), `predict` hands the engine the
same `(N, len(input_labels))` float32 matrix, and the three results are the
engine output under the three variant-specific wrappings. -/
theorem C1_variant_equivalence (f32 : α → α) (m : OnnxModel α) (rows : List (List α))
    (df : DataFrame α) (d : List (String × DictVal α))
    (hnd : m.input_labels.Nodup) (hne : m.input_labels ≠ [])
    (hrows : ∀ r ∈ rows, r.length = m.input_labels.length)
    (hcols : ∀ l ∈ m.input_labels, l ∈ df.columns)
    (hsel : df.select m.input_labels = rows)
    (hkeys : ∀ l ∈ m.input_labels, (d.lookup l).isSome ∧
      DictVal.flatten32 f32 ((d.lookup l).getD (DictVal.scalar default))
        = (rows.map fun r => r.getD (m.input_labels.indexOf l) default).map f32) :
    predict f32 m (.array ⟨[rows.length, m.input_labels.length], rows.flatten⟩)
        = .ok (.matrix (m.run (rows.map fun r => r.map f32))) ∧
    predict f32 m (.table df)
        = (mkDataFrame (m.run (rows.map fun r => r.map f32)) df.index m.output_labels).map
            PredictResult.table ∧
    predict f32 m (.dict d)
        = .ok (.mapping
            ((m.output_labels.zip (npTranspose (m.run (rows.map fun r => r.map f32)))).map
              fun p => (p.1, p.2.map f32))) := by
  have hA := normalize_array_ofRows f32 m rows hrows
  have hT : normalize f32 m (.table df) = .ok (rows.map fun r => r.map f32) := by
    simp only [normalize]
    rw [if_neg (not_not_intro hcols), hsel]
  have hD := normalize_dict_of_cols f32 m rows d hnd hne hrows hkeys
  refine ⟨?_, ?_, ?_⟩
  · simp [predict, hA]
  · simp [predict, hT]
  · simp [predict, hD]

/-! ### Concrete instances used by the witnesses (the spec's §8 scenario:
`input_labels = ["a","b"]`, `output_labels = ["x"]`, engine returning one
column of row sums). -/

/-- A concrete model over `Int`: two inputs, one output, engine = row sum. -/
def mW : OnnxModel Int :=
  { model_path := "model2_100x2_vs_inbody.onnx"
    input_labels := ["a", "b"]
    output_labels := ["x"]
    run := fun vals => vals.map fun r => [r.foldl (fun s v => s + v) 0] }

/-- A table with permuted columns, an extra column and a non-default index. -/
def dfW : DataFrame Int := ⟨[10, 11], ["b", "extra", "a"], [[3, 9, 1], [4, 9, 2]]⟩

/-- A dict carrying the same columns as `dfW`, keys in another order. -/
def dW : List (String × DictVal Int) :=
  [("b", DictVal.arr ⟨[2], [3, 4]⟩), ("a", DictVal.ser ⟨[1, 2]⟩)]

/-- Witness for `C1` at the spec's concrete scenario. -/
theorem C1_witness :
    predict (fun x : Int => x) mW (.array ⟨[2, 2], [1, 3, 2, 4]⟩)
        = .ok (.matrix [[4], [6]]) ∧
    predict (fun x : Int => x) mW (.table dfW)
        = .ok (.table ⟨[10, 11], ["x"], [[4], [6]]⟩) ∧
    predict (fun x : Int => x) mW (.dict dW)
        = .ok (.mapping [("x", [4, 6])]) := by
  have h := C1_variant_equivalence (fun x : Int => x) mW [[1, 3], [2, 4]] dfW dW
    (by decide) (by decide) (by decide) (by decide) (by decide) (by decide)
  exact ⟨h.1.trans (by decide), h.2.1.trans (by decide), h.2.2.trans (by decide)⟩

/-- `C2`: for a `Table` input holding every `input_labels` column, with a
well-formed index and an engine output of matching shape, `predict` returns
a `Table` whose columns are exactly `output_labels` in declared order, with
as many rows as the input, and whose index is the input index verbatim. -/
theorem C2_table_round_trip (f32 : α → α) (m : OnnxModel α) (df : DataFrame α)
    (hcols : ∀ l ∈ m.input_labels, l ∈ df.columns)
    (hidx : df.index.length = df.rows.length)
    (hN : (m.run ((df.select m.input_labels).map fun r => r.map f32)).length = df.rows.length)
    (hW : ∀ r ∈ m.run ((df.select m.input_labels).map fun r => r.map f32),
      r.length = m.output_labels.length) :
    predict f32 m (.table df)
      = .ok (.table ⟨df.index, m.output_labels,
          m.run ((df.select m.input_labels).map fun r => r.map f32)⟩) ∧
    (m.run ((df.select m.input_labels).map fun r => r.map f32)).length = df.index.length := by
  have hn : normalize f32 m (.table df)
      = .ok ((df.select m.input_labels).map fun r => r.map f32) := by
    simp only [normalize]
    rw [if_neg (not_not_intro hcols)]
  refine ⟨?_, by rw [hN, hidx]⟩
  have hp : predict f32 m (.table df)
      = (mkDataFrame (m.run ((df.select m.input_labels).map fun r => r.map f32))
          df.index m.output_labels).map PredictResult.table := by
    simp [predict, hn]
  rw [hp]
  simp only [mkDataFrame]
  rw [if_pos ⟨by rw [hN, hidx], hW⟩]
  rfl

/-- Witness for `C2`: a table with shuffled columns, an extra column and
the non-default index `[10, 11]` round-trips into a `["x"]`-labelled table
with the same index. -/
theorem C2_witness :
    predict (fun x : Int => x) mW (.table dfW)
      = .ok (.table ⟨[10, 11], ["x"], [[4], [6]]⟩) := by
  have h := C2_table_round_trip (fun x : Int => x) mW dfW
    (by decide) (by decide) (by decide) (by decide)
  exact h.1.trans (by decide)

/-- `C3`: a `Matrix` input raises the shape `ValueError` (for any engine,
so before any engine invocation) exactly when its rank is not 2 or its
column count differs from `len(input_labels)`; when the shape is right the
call goes through to the engine and returns its output unwrapped. -/
theorem C3_matrix_shape_check (f32 : α → α) (m : OnnxModel α) (nd : NDArray α) :
    ((nd.ndim ≠ 2 ∨ nd.dim 1 ≠ m.input_labels.length) →
      ∀ run₂ : List (List α) → List (List α),
        predict f32 { m with run := run₂ } (.array nd)
          = .error (.valueError (wrongColsMsg m.input_labels.length))) ∧
    (nd.ndim = 2 → nd.dim 1 = m.input_labels.length →
      predict f32 m (.array nd) = .ok (.matrix (m.run ((nd.astype f32).toMatrix)))) := by
  constructor
  · intro hbad run₂
    have hn : normalize f32 { m with run := run₂ } (.array nd)
        = .error (.valueError (wrongColsMsg m.input_labels.length)) := by
      simp only [normalize]
      rw [if_pos hbad]
    simp [predict, hn]
  · intro h2 hk
    have hn : normalize f32 m (.array nd) = .ok ((nd.astype f32).toMatrix) := by
      simp only [normalize]
      rw [if_neg (by simp [h2, hk])]
    simp [predict, hn]

/-- Witness for `C3`: a rank-1 array of 4 entries is rejected whatever the
engine replies, and a well-shaped `(2, 2)` array is accepted. -/
theorem C3_witness :
    predict (fun x : Int => x) { mW with run := fun _ => [[99]] } (.array ⟨[4], [1, 3, 2, 4]⟩)
        = .error (.valueError (wrongColsMsg 2)) ∧
    predict (fun x : Int => x) mW (.array ⟨[2, 2], [1, 3, 2, 4]⟩)
        = .ok (.matrix [[4], [6]]) := by
  have h := C3_matrix_shape_check (fun x : Int => x) mW ⟨[4], [1, 3, 2, 4]⟩
  have h2 := C3_matrix_shape_check (fun x : Int => x) mW ⟨[2, 2], [1, 3, 2, 4]⟩
  exact ⟨(h.1 (by decide) _).trans (by decide), (h2.2 rfl rfl).trans (by decide)⟩

/-- `C4`: a `Table` missing an `input_labels` column, or a `Mapping`
missing an `input_labels` key, makes `predict` raise the column
`ValueError` whose message spells out the whole required label list — for
any engine, hence with no engine invocation and no partial result. -/
theorem C4_missing_labels_column_error (f32 : α → α) (m : OnnxModel α) (df : DataFrame α)
    (d : List (String × DictVal α)) :
    ((¬ ∀ l ∈ m.input_labels, l ∈ df.columns) →
      ∀ run₂ : List (List α) → List (List α),
        predict f32 { m with run := run₂ } (.table df)
          = .error (.valueError (colListMsg m.input_labels))) ∧
    ((¬ ∀ l ∈ m.input_labels, (d.lookup l).isSome) →
      ∀ run₂ : List (List α) → List (List α),
        predict f32 { m with run := run₂ } (.dict d)
          = .error (.valueError (colListMsg m.input_labels))) := by
  constructor
  · intro hbad run₂
    have hn : normalize f32 { m with run := run₂ } (.table df)
        = .error (.valueError (colListMsg m.input_labels)) := by
      simp only [normalize]
      rw [if_pos hbad]
    simp [predict, hn]
  · intro hbad run₂
    have hn : normalize f32 { m with run := run₂ } (.dict d)
        = .error (.valueError (colListMsg m.input_labels)) := by
      simp only [normalize]
      rw [if_pos hbad]
    simp [predict, hn]

/-- Witness for `C4`: a table having only column `"b"` and a dict having
only key `"a"` are both rejected with the column message, whatever the
engine would reply. -/
theorem C4_witness :
    predict (fun x : Int => x) { mW with run := fun _ => [[99]] }
        (.table ⟨[0], ["b"], [[3]]⟩)
      = .error (.valueError (colListMsg ["a", "b"])) ∧
    predict (fun x : Int => x) { mW with run := fun _ => [[99]] }
        (.dict [("a", DictVal.scalar 1)])
      = .error (.valueError (colListMsg ["a", "b"])) := by
  have h := C4_missing_labels_column_error (fun x : Int => x) mW ⟨[0], ["b"], [[3]]⟩
    [("a", DictVal.scalar 1)]
  exact ⟨(h.1 (by decide) _).trans (by decide), (h.2 (by decide) _).trans (by decide)⟩

theorem map_f32_f32 (f32 : α → α) (hf : ∀ a, f32 (f32 a) = f32 a) (l : List α) :
    (l.map f32).map f32 = l.map f32 := by
  rw [List.map_map]
  exact List.map_congr_left fun a _ => hf a

theorem f32_getD_map (f32 : α → α) (hf : ∀ a, f32 (f32 a) = f32 a) (r : List α) (i : Nat) :
    f32 ((r.map f32).getD i default) = f32 (r.getD i default) := by
  by_cases hi : i < r.length
  · rw [List.getD_eq_getElem _ _ (by simpa using hi), List.getD_eq_getElem _ _ hi,
      List.getElem_map]
    exact hf _
  · rw [List.getD_eq_default _ _ (by simpa using Nat.le_of_not_lt hi),
      List.getD_eq_default _ _ (Nat.le_of_not_lt hi)]

theorem flatten32_map32 (f32 : α → α) (hf : ∀ a, f32 (f32 a) = f32 a) (v : DictVal α) :
    DictVal.flatten32 f32 (v.map32 f32) = DictVal.flatten32 f32 v := by
  cases v with
  | scalar a => simp [DictVal.map32, DictVal.flatten32, hf a]
  | arr nd => simp [DictVal.map32, DictVal.flatten32, NDArray.map32, map_f32_f32 f32 hf]
  | ser s => simp [DictVal.map32, DictVal.flatten32, Series.map32, map_f32_f32 f32 hf]
  | frame df =>
    simp only [DictVal.map32, DictVal.flatten32, DataFrame.map32, ← List.map_flatten]
    exact map_f32_f32 f32 hf df.rows.flatten

theorem normalize_map32 (f32 : α → α) (hf : ∀ a, f32 (f32 a) = f32 a)
    (m : OnnxModel α) (data : InputRecord α) :
    normalize f32 m (data.map32 f32) = normalize f32 m data := by
  cases data with
  | array nd =>
    simp only [InputRecord.map32, normalize, NDArray.map32, NDArray.ndim, NDArray.dim]
    by_cases hc : nd.shape.length ≠ 2 ∨ nd.shape.getD 1 0 ≠ m.input_labels.length
    · rw [if_pos hc, if_pos hc]
    · rw [if_neg hc, if_neg hc]
      simp only [NDArray.astype, NDArray.toMatrix, NDArray.dim]
      rw [map_f32_f32 f32 hf]
  | table df =>
    simp only [InputRecord.map32, normalize, DataFrame.map32]
    by_cases hc : ¬ ∀ l ∈ m.input_labels, l ∈ df.columns
    · rw [if_pos hc, if_pos hc]
    · rw [if_neg hc, if_neg hc]
      simp only [DataFrame.select, List.map_map]
      congr 1
      apply List.map_congr_left
      intro r _
      simp only [Function.comp]
      rw [List.map_map, List.map_map]
      apply List.map_congr_left
      intro l _
      simp only [Function.comp]
      exact f32_getD_map f32 hf r (df.columns.indexOf l)
  | dict d =>
    simp only [InputRecord.map32, normalize]
    have hl : ∀ l : String,
        ((d.map fun p => (p.1, p.2.map32 f32)).lookup l) = (d.lookup l).map (DictVal.map32 f32) :=
      fun l => lookup_map_snd d (DictVal.map32 f32) l
    have hsome : (∀ l ∈ m.input_labels, ((d.map fun p => (p.1, p.2.map32 f32)).lookup l).isSome)
        ↔ (∀ l ∈ m.input_labels, (d.lookup l).isSome) := by
      constructor
      · intro hy l hl2
        have hv := hy l hl2
        rw [hl l] at hv
        simpa using hv
      · intro hy l hl2
        rw [hl l]
        simpa using hy l hl2
    by_cases hc : ¬ ∀ l ∈ m.input_labels, (d.lookup l).isSome
    · rw [if_pos ((not_congr hsome).mpr hc), if_pos hc]
    · rw [if_neg (fun hx => hc ((not_congr hsome).mp hx)), if_neg hc]
      congr 1
      apply List.map_congr_left
      intro l _
      rw [hl l]
      cases hdl : d.lookup l with
      | none => simp
      | some v => simpa using flatten32_map32 f32 hf v
  | scalar a => simp [InputRecord.map32, normalize]
  | str s => simp [InputRecord.map32, normalize]

/-- `C5`: `predict` truncates every accepted value to 32-bit float before
the engine call: as long as the truncation is idempotent, feeding the
pre-truncated ("32-bit equivalent") input produces an output identical to
feeding the original full-precision input, for every variant. -/
theorem C5_float32_coercion (f32 : α → α) (hf : ∀ a, f32 (f32 a) = f32 a)
    (m : OnnxModel α) (data : InputRecord α) :
    predict f32 m (data.map32 f32) = predict f32 m data := by
  have hn := normalize_map32 f32 hf m data
  cases data with
  | array nd =>
    simp only [InputRecord.map32] at hn
    simp only [predict, InputRecord.map32]
    rw [hn]
  | table df =>
    simp only [InputRecord.map32] at hn
    simp only [predict, InputRecord.map32]
    rw [hn]
    cases hres : normalize f32 m (.table df) with
    | error e => rfl
    | ok vals => simp [DataFrame.map32]
  | dict d =>
    simp only [InputRecord.map32] at hn
    simp only [predict, InputRecord.map32]
    rw [hn]
  | scalar a => simp [predict, InputRecord.map32, normalize]
  | str s => simp [predict, InputRecord.map32, normalize]

/-- A concrete idempotent truncation on `Int`: reduction mod 16. -/
def truncW : Int → Int := fun x => x % 16

/-- Witness for `C5`: with the mod-16 truncation, pre-truncating the input
matrix leaves the prediction unchanged. -/
theorem C5_witness :
    predict truncW mW (InputRecord.map32 truncW (.array ⟨[2, 2], [21, 3, 2, 40]⟩))
      = predict truncW mW (.array ⟨[2, 2], [21, 3, 2, 40]⟩) :=
  C5_float32_coercion truncW (fun a => Int.emod_emod_of_dvd a (dvd_refl 16)) mW
    (.array ⟨[2, 2], [21, 3, 2, 40]⟩)

theorem select_eq_of_col_eq (df₁ df₂ : DataFrame α) (labels : List String)
    (hne : labels ≠ [])
    (hcol : ∀ l ∈ labels, df₂.col l = df₁.col l) :
    df₂.select labels = df₁.select labels := by
  have hlen : df₂.rows.length = df₁.rows.length := by
    obtain ⟨l₀, hl₀⟩ := List.exists_mem_of_ne_nil labels hne
    have h := congrArg List.length (hcol l₀ hl₀)
    simpa [DataFrame.col] using h
  apply List.ext_getElem
  · simp [DataFrame.select, hlen]
  · intro i h1 h2
    have hi2 : i < df₂.rows.length := by simpa [DataFrame.select] using h1
    have hi1 : i < df₁.rows.length := hlen ▸ hi2
    simp only [DataFrame.select, List.getElem_map]
    apply List.map_congr_left
    intro l hl
    have h := congrArg (fun xs => xs.getD i default) (hcol l hl)
    simp only [DataFrame.col] at h
    rw [List.getD_eq_getElem _ _ (by simpa using hi2),
      List.getD_eq_getElem _ _ (by simpa using hi1)] at h
    simpa using h

/-- `C6`: a `Table` is read purely by column name: two tables exposing the
same values under every `input_labels` name (regardless of column
positions or extra columns) and the same index give identical predictions. -/
theorem C6_column_order_invariance (f32 : α → α) (m : OnnxModel α) (df₁ df₂ : DataFrame α)
    (hne : m.input_labels ≠ [])
    (h1 : ∀ l ∈ m.input_labels, l ∈ df₁.columns)
    (h2 : ∀ l ∈ m.input_labels, l ∈ df₂.columns)
    (hidx : df₂.index = df₁.index)
    (hcol : ∀ l ∈ m.input_labels, df₂.col l = df₁.col l) :
    predict f32 m (.table df₂) = predict f32 m (.table df₁) := by
  have hsel := select_eq_of_col_eq df₁ df₂ m.input_labels hne hcol
  have hn : normalize f32 m (.table df₂) = normalize f32 m (.table df₁) := by
    simp only [normalize]
    rw [if_neg (not_not_intro h2), if_neg (not_not_intro h1), hsel]
  simp only [predict]
  rw [hn, hidx]

/-- Witness for `C6`: `dfW` (columns `b, extra, a`) and the plain
two-column table (columns `a, b`) with the same values predict equally. -/
theorem C6_witness :
    predict (fun x : Int => x) mW (.table dfW)
      = predict (fun x : Int => x) mW (.table ⟨[10, 11], ["a", "b"], [[1, 3], [2, 4]]⟩) :=
  C6_column_order_invariance (fun x : Int => x) mW
    ⟨[10, 11], ["a", "b"], [[1, 3], [2, 4]]⟩ dfW
    (by decide) (by decide) (by decide) (by decide) (by decide)

/-- `C7` (counterexample): the `TypeError` message at a bare-number input
is capitalised `"Unsupported input type"`, not the claimed lowercase
`"unsupported input type"`. -/
theorem C7_message_counterexample :
    predict (fun x : Int => x) mW (.scalar 0)
      ≠ .error (.typeError "unsupported input type") := by
  decide

/-- `C7` (amended): an input that is none of Matrix/Table/Mapping — a bare
number or a string — makes `predict` raise `TypeError` with message
`"Unsupported input type"`, for any engine, hence without invoking it. -/
theorem C7_unsupported_type_error (f32 : α → α) (m : OnnxModel α) (a : α) (s : String)
    (run₂ : List (List α) → List (List α)) :
    predict f32 { m with run := run₂ } (.scalar a)
        = .error (.typeError "Unsupported input type") ∧
    predict f32 { m with run := run₂ } (.str s)
        = .error (.typeError "Unsupported input type") :=
  ⟨rfl, rfl⟩

/-- `C8`: the `predict` method assigns no attribute of `self`: the
post-state equals the pre-state (path, label lists, session binding all
unchanged, whether the call returns or raises), repeating the call on the
post-state reproduces the same outcome, and `__call__` is the same
function as `predict`. -/
theorem C8_no_state_mutation (f32 : α → α) (m : OnnxModel α) (data : InputRecord α) :
    (predictS f32 m data).2 = m ∧
    (predictS f32 m data).2.model_path = m.model_path ∧
    (predictS f32 m data).2.input_labels = m.input_labels ∧
    (predictS f32 m data).2.output_labels = m.output_labels ∧
    predictS f32 (predictS f32 m data).2 data = predictS f32 m data ∧
    call f32 m data = predict f32 m data :=
  ⟨rfl, rfl, rfl, rfl, rfl, rfl⟩

/-- `C9`: on a `Mapping` input, when the engine's output width `w` differs
from `len(output_labels)` the call still returns normally; `zip` silently
truncates, so the result dict binds exactly the first `min(w, len)` output
labels, each to one flattened float32 column. -/
theorem C9_output_width_mismatch (f32 : α → α) (m : OnnxModel α)
    (d : List (String × DictVal α)) (vals : List (List α)) (w : Nat)
    (hn : normalize f32 m (.dict d) = .ok vals)
    (hne : m.run vals ≠ [])
    (huni : ∀ r ∈ m.run vals, r.length = w)
    (hw : w ≠ m.output_labels.length) :
    predict f32 m (.dict d)
      = .ok (.mapping ((m.output_labels.zip (npTranspose (m.run vals))).map
          fun p => (p.1, p.2.map f32))) ∧
    (((m.output_labels.zip (npTranspose (m.run vals))).map
        fun p => (p.1, p.2.map f32)).map Prod.fst)
      = m.output_labels.take (min w m.output_labels.length) := by
  constructor
  · simp [predict, hn]
  · have hlen : (npTranspose (m.run vals)).length = w := by
      obtain ⟨o, t, ho⟩ : ∃ o t, m.run vals = o :: t := by
        cases hE : m.run vals with
        | nil => exact absurd hE hne
        | cons o t => exact ⟨o, t, rfl⟩
      simp only [npTranspose, ho, List.headD_cons, List.length_map, List.length_range]
      exact huni o (ho ▸ List.mem_cons_self o t)
    have hfst : (((m.output_labels.zip (npTranspose (m.run vals))).map
          fun p => (p.1, p.2.map f32)).map Prod.fst)
        = ((m.output_labels.zip (npTranspose (m.run vals))).map Prod.fst) := by
      rw [List.map_map]
      exact List.map_congr_left fun p _ => rfl
    rw [hfst, map_fst_zip_take, hlen]
    conv_rhs => rw [← List.take_take, List.take_length]

/-- A model whose engine returns 2 columns while 3 output labels are
declared. -/
def mW3 : OnnxModel Int :=
  { model_path := "m3.onnx"
    input_labels := ["a"]
    output_labels := ["x", "y", "z"]
    run := fun vals => vals.map fun r =>
      [r.foldl (fun s v => s + v) 0, 2 * r.foldl (fun s v => s + v) 0] }

/-- Witness for `C9`: with 3 declared output labels and an engine emitting
2 columns, the dict result holds exactly the keys `x` and `y`. -/
theorem C9_witness :
    predict (fun x : Int => x) mW3 (.dict [("a", DictVal.scalar 5)])
      = .ok (.mapping [("x", [5]), ("y", [10])]) := by
  have h := C9_output_width_mismatch (fun x : Int => x) mW3 [("a", DictVal.scalar 5)] [[5]] 2
    (by decide) (by decide) (by decide) (by decide)
  exact h.1.trans (by decide)

/-- `C10`: a `Mapping` holding every required key whose flattened per-key
columns disagree in length makes `predict` raise the numpy concatenation
`ValueError`, for any engine — so before any engine invocation and with no
result. -/
theorem C10_ragged_dict_error (f32 : α → α) (m : OnnxModel α)
    (d : List (String × DictVal α)) (l₁ l₂ : String)
    (hkeys : ∀ l ∈ m.input_labels, (d.lookup l).isSome)
    (hl₁ : l₁ ∈ m.input_labels) (hl₂ : l₂ ∈ m.input_labels)
    (hneq : (DictVal.flatten32 f32 ((d.lookup l₁).getD (DictVal.scalar default))).length
         ≠ (DictVal.flatten32 f32 ((d.lookup l₂).getD (DictVal.scalar default))).length) :
    ∀ run₂ : List (List α) → List (List α),
      predict f32 { m with run := run₂ } (.dict d)
        = .error (.valueError npConcatMismatchMsg) := by
  intro run₂
  have hn : normalize f32 { m with run := run₂ } (.dict d)
      = .error (.valueError npConcatMismatchMsg) := by
    simp only [normalize]
    rw [if_neg (not_not_intro hkeys)]
    set g : String → List α :=
      fun l => DictVal.flatten32 f32 ((d.lookup l).getD (DictVal.scalar default)) with hg
    cases hE : m.input_labels with
    | nil =>
      rw [hE] at hl₁
      simp at hl₁
    | cons a t =>
      simp only [List.map_cons, columnStack]
      rw [if_neg]
      intro hall
      have hall2 : ∀ x ∈ (a :: t).map g, x.length = (g a).length := by
        intro x hx
        rcases List.mem_map.mp hx with ⟨l, hl, rfl⟩
        rcases List.mem_cons.mp hl with rfl | hlt
        · rfl
        · exact hall _ (List.mem_map_of_mem g hlt)
      have e₁ : (g l₁).length = (g a).length :=
        hall2 _ (List.mem_map_of_mem g (hE ▸ hl₁))
      have e₂ : (g l₂).length = (g a).length :=
        hall2 _ (List.mem_map_of_mem g (hE ▸ hl₂))
      exact hneq (e₁.trans e₂.symm)
  simp [predict, hn]

/-- Witness for `C10`: keys `a` (3 values) and `b` (2 values) raise the
concatenation error whatever the engine would reply. -/
theorem C10_witness :
    predict (fun x : Int => x) { mW with run := fun _ => [[99]] }
        (.dict [("a", DictVal.ser ⟨[1, 2, 3]⟩), ("b", DictVal.ser ⟨[4, 5]⟩)])
      = .error (.valueError npConcatMismatchMsg) :=
  C10_ragged_dict_error (fun x : Int => x) mW
    [("a", DictVal.ser ⟨[1, 2, 3]⟩), ("b", DictVal.ser ⟨[4, 5]⟩)] "a" "b"
    (by decide) (by decide) (by decide) (by decide) (fun _ => [[99]])

end Checkupy
